import Mathlib

/-!
Verification of the westack-base ECR storage engine and timeseries batch
writer against its natural-language specification.

The definitions below are a shallow embedding of the TypeScript source:

* `ComponentTypeManager` functions come from
  src/services/schema/component-type-manager.service.ts (the file holds two
  variants of the class; they differ only in deleteComponentType, both are
  embedded).
* `EntityManager` functions come from the entity-manager service (second
  module of src/services/storage/influx-writer.service.ts).  The Memgraph
  property graph is embedded as an explicit `GraphStore` state; the Cypher
  statements of each method are translated into pure state updates.
  Component nodes are represented inside their owning `EntityNode`, which is
  faithful because a Component node is only ever created together with its
  single HAS_COMPONENT edge and deleted with it.
* `InfluxWriterService` (first module of the same file) is embedded as a
  pure state machine over `WriterState`; the asynchronous backend write is
  parametrised by its outcome and by the points pushed while it is awaited.

JavaScript runtime values that can appear in a component property bag are
modelled by `JSValue`: the validator only discriminates typeof string /
number / boolean, `instanceof Date`, and everything else (`null` stands for
any such remaining value, e.g. null or a plain object, which the validator
treats identically).  Numbers are modelled as `Int`: the code only inspects
their typeof, never their value.

Modelled from the spec: the `executeWriteTx` / `executeReadTx` transaction
wrappers of MemgraphClient are called by the managers but are not part of
the provided sources.  Following spec section 5 and 7 (one transaction per
operation, all-or-nothing entity creation, duplicate-id creation rejected
by the store uniqueness constraint of constraints.cypher), a write
transaction that fails leaves the store unchanged, and `CREATE` of an
:Entity node whose id already exists fails the transaction.
-/

/-- A JavaScript runtime value as far as the validator and the JSON
serialisation distinguish them.  `null` stands for every value that is not
a string, number, boolean or Date (the code treats them all alike). -/
inductive JSValue where
  | str (s : String)
  | num (n : Int)
  | bool (b : Bool)
  | date (iso : String)
  | null
deriving DecidableEq, Repr

/-- typeof value === "string" -/
def JSValue.isString : JSValue → Bool
  | .str _ => true
  | _ => false

/-- typeof value === "number" -/
def JSValue.isNumber : JSValue → Bool
  | .num _ => true
  | _ => false

/-- typeof value === "boolean" -/
def JSValue.isBoolean : JSValue → Bool
  | .bool _ => true
  | _ => false

/-- value instanceof Date -/
def JSValue.isDate : JSValue → Bool
  | .date _ => true
  | _ => false

/-- JSON.stringify at write time followed by JSON.parse at read time: a
Date object is serialised to its ISO string (Date.prototype.toJSON); the
other modelled values survive the round trip unchanged. -/
def JSValue.jsonRoundTrip : JSValue → JSValue
  | .date iso => .str iso
  | v => v

/-- A component property bag: Record of string keys to values. -/
abbrev PropBag := List (String × JSValue)

/-- The JavaScript `in` operator: key membership in the bag. -/
def hasKey (bag : PropBag) (k : String) : Bool :=
  bag.any (fun p => p.1 == k)

/-- properties[name]; only meaningful when `hasKey` holds. -/
def getProp (bag : PropBag) (k : String) : JSValue :=
  match bag.find? (fun p => p.1 == k) with
  | some p => p.2
  | none => JSValue.null

/-- The stored form of a bag: JSON.stringify on write, JSON.parse on read. -/
def serializeBag (bag : PropBag) : PropBag :=
  bag.map (fun p => (p.1, p.2.jsonRoundTrip))

/-- True when no value of the bag is a Date object. -/
def dateFreeBag (bag : PropBag) : Bool :=
  bag.all (fun p => !p.2.isDate)

/-- PropertyDefinition of ecs.model.ts: name, declared kind ("String",
"Number", "Boolean", "Date" or "JSON" in the source union), required flag. -/
structure PropertyDefinition where
  name : String
  type : String
  required : Bool
deriving DecidableEq, Repr

/-- ComponentType meta-node: name (unique), declared properties, and the
isBrickSchema flag used by the first manager variant. -/
structure ComponentType where
  name : String
  properties : List PropertyDefinition
  isBrickSchema : Bool
deriving DecidableEq, Repr

/-- The :ComponentType meta-node registry.  The uniqueness constraint on
ComponentType.name (constraints.cypher) keeps names distinct; lookup takes
the first match. -/
abbrev Registry := List ComponentType

/-- ComponentTypeManager.getComponentType: MATCH (ct:ComponentType {name}). -/
def getComponentType (reg : Registry) (name : String) : Option ComponentType :=
  reg.find? (fun ct => ct.name == name)

/-- The result of ComponentTypeManager.validateComponent. -/
structure ValidationResult where
  valid : Bool
  errors : List String
deriving DecidableEq, Repr

/-- ComponentTypeManager.validatePropertyType: the switch over the declared
kind string; unrecognized kinds fall to the default and always pass. -/
def validatePropertyType (value : JSValue) (expectedType : String) : Bool :=
  if expectedType == "String" then value.isString
  else if expectedType == "Number" then value.isNumber
  else if expectedType == "Boolean" then value.isBoolean
  else if expectedType == "Date" then value.isDate || value.isString
  else if expectedType == "JSON" then true
  else true

/-- The error list built by the property loop of validateComponent, in push
order: the missing-required check, then the present-value kind check. -/
def componentErrors (bag : PropBag) : List PropertyDefinition → List String
  | [] => []
  | prop :: rest =>
      (if prop.required && !hasKey bag prop.name then
        ["Missing required property: " ++ prop.name]
      else []) ++
      (if hasKey bag prop.name && !validatePropertyType (getProp bag prop.name) prop.type then
        ["Invalid type for property '" ++ prop.name ++ "': expected " ++ prop.type]
      else []) ++
      componentErrors bag rest

/-- ComponentTypeManager.validateComponent: unknown type gives a single
error; otherwise the property loop collects errors and valid is
errors.length === 0. -/
def validateComponent (reg : Registry) (componentType : String) (properties : PropBag) :
    ValidationResult :=
  match getComponentType reg componentType with
  | none => ⟨false, ["Unknown component type: " ++ componentType]⟩
  | some t =>
      let errors := componentErrors properties t.properties
      ⟨errors.isEmpty, errors⟩

/-- Errors of the component-type manager deletion paths. -/
inductive CTError where
  | notFound (name : String)
  | brickProtected (name : String)
deriving DecidableEq, Repr

/-- MATCH (ct:ComponentType {name}) DELETE ct. -/
def removeComponentTypeNodes (reg : Registry) (name : String) : Registry :=
  reg.filter (fun ct => !(ct.name == name))

/-- First ComponentTypeManager variant: deleteComponentType refuses absent
names and Brick Schema types, then deletes the meta-node. -/
def deleteComponentType (reg : Registry) (name : String) : Except CTError Registry :=
  match getComponentType reg name with
  | none => .error (.notFound name)
  | some ct =>
      if ct.isBrickSchema then .error (.brickProtected name)
      else .ok (removeComponentTypeNodes reg name)

/-- Second ComponentTypeManager variant: deleteComponentType refuses absent
names only, then deletes the meta-node. -/
def deleteComponentTypeNoBrickCheck (reg : Registry) (name : String) :
    Except CTError Registry :=
  match getComponentType reg name with
  | none => .error (.notFound name)
  | some _ => .ok (removeComponentTypeNodes reg name)

/-- Component / ComponentInput of ecs.model.ts: a type name and a bag. -/
structure Component where
  componentType : String
  properties : PropBag
deriving DecidableEq, Repr

/-- CreateEntityInput of ecs.model.ts. -/
structure CreateEntityInput where
  id : String
  components : List Component
deriving DecidableEq, Repr

/-- Entity of ecs.model.ts as returned by the manager; timestamps are the
millisecond values produced by the Cypher timestamp() function. -/
structure Entity where
  id : String
  components : List Component
  createdAt : Nat
  updatedAt : Nat
deriving DecidableEq, Repr

/-- A :Component node together with its HAS_COMPONENT edge.  The stored
properties are the JSON string written by the manager, held here in parsed
form (JSON.parse of that string). -/
structure StoredComponent where
  type : String
  properties : PropBag
deriving DecidableEq, Repr

/-- An :Entity node with its owned component nodes. -/
structure EntityNode where
  id : String
  createdAt : Nat
  updatedAt : Nat
  comps : List StoredComponent
deriving DecidableEq, Repr

/-- A dynamically typed relationship edge between two :Entity nodes. -/
structure Edge where
  type : String
  fromId : String
  toId : String
  properties : PropBag
deriving DecidableEq, Repr

/-- The property graph: :Entity nodes (with their components) and the
entity-to-entity relationship edges. -/
structure GraphStore where
  entities : List EntityNode
  rels : List Edge
deriving DecidableEq, Repr

/-- The distinct throw sites of the EntityManager, as a closed error type
(each constructor corresponds to one thrown Error message / store abort). -/
inductive EMError where
  | invalidComponent (componentType : String) (errors : List String)
  | entityExists (id : String)
  | entityNotFound (id : String)
  | alreadyHasComponent (entityId componentType : String)
  | sourceNotFound (id : String)
  | targetNotFound (id : String)
  | readbackFailed (id : String)
deriving DecidableEq, Repr

/-- MATCH (e:Entity {id}): the uniqueness constraint on Entity.id keeps at
most one node per id; find? takes the first (hence only) match. -/
def findEntity (st : GraphStore) (id : String) : Option EntityNode :=
  st.entities.find? (fun e => e.id == id)

/-- Map one entity node of the store, leaving the rest unchanged. -/
def mapEntity (st : GraphStore) (id : String) (f : EntityNode → EntityNode) : GraphStore :=
  { st with entities := st.entities.map (fun e => if e.id == id then f e else e) }

/-- The serialised component node created for one input component
(properties pass through JSON.stringify). -/
def storeComponent (c : Component) : StoredComponent :=
  ⟨c.componentType, serializeBag c.properties⟩

/-- EntityManager.getEntity: reads the entity node with all owned component
nodes, JSON.parse-ing each properties string. -/
def getEntity (st : GraphStore) (id : String) : Option Entity :=
  (findEntity st id).map (fun e =>
    ⟨e.id, e.comps.map (fun c => ⟨c.type, c.properties⟩), e.createdAt, e.updatedAt⟩)

/-- EntityManager.validateComponents: validates the inputs in order and
throws on the first invalid component, with that component's errors joined
into the message. -/
def validateComponents (reg : Registry) : List Component → Except EMError Unit
  | [] => .ok ()
  | c :: rest =>
      let v := validateComponent reg c.componentType c.properties
      if v.valid then validateComponents reg rest
      else .error (.invalidComponent c.componentType v.errors)

/-- EntityManager.createEntity: validate all components, then one write
transaction creating the :Entity node (rejected by the uniqueness
constraint when the id exists, leaving the store unchanged) and one
component node plus HAS_COMPONENT edge per input component, then re-read. -/
def createEntity (reg : Registry) (st : GraphStore) (now : Nat)
    (input : CreateEntityInput) : Except EMError (GraphStore × Entity) :=
  match validateComponents reg input.components with
  | .error err => .error err
  | .ok () =>
  if st.entities.any (fun e => e.id == input.id) then
    .error (.entityExists input.id)
  else
    let node : EntityNode := ⟨input.id, now, now, input.components.map storeComponent⟩
    let st1 : GraphStore := { st with entities := st.entities ++ [node] }
    match getEntity st1 input.id with
    | some e => .ok (st1, e)
    | none => .error (.readbackFailed input.id)

/-- The store after a createEntity call (unchanged when the call threw). -/
def createEntityStore (reg : Registry) (st : GraphStore) (now : Nat)
    (input : CreateEntityInput) : GraphStore :=
  match createEntity reg st now input with
  | .ok (st1, _) => st1
  | .error _ => st

/-- EntityManager.updateEntity: require existence, validate, then one
transaction deleting all component nodes, inserting the new set and setting
updatedAt, then re-read. -/
def updateEntity (reg : Registry) (st : GraphStore) (now : Nat)
    (id : String) (components : List Component) : Except EMError (GraphStore × Entity) :=
  match getEntity st id with
  | none => .error (.entityNotFound id)
  | some _ =>
    match validateComponents reg components with
    | .error err => .error err
    | .ok () =>
    let st1 := mapEntity st id (fun e =>
      { e with comps := components.map storeComponent, updatedAt := now })
    match getEntity st1 id with
    | some e => .ok (st1, e)
    | none => .error (.readbackFailed id)

/-- EntityManager.deleteEntity: false without touching the store when the
entity does not exist; otherwise one transaction deletes the entity node,
its component nodes and every edge in which it is source or target. -/
def deleteEntity (st : GraphStore) (id : String) : Bool × GraphStore :=
  match getEntity st id with
  | none => (false, st)
  | some _ =>
      (true,
       { entities := st.entities.filter (fun e => !(e.id == id)),
         rels := st.rels.filter (fun r => !(r.fromId == id) && !(r.toId == id)) })

/-- EntityManager.addComponent: require existence, reject an already owned
component type, validate, then one transaction creating the node and edge
and setting updatedAt, then re-read. -/
def addComponent (reg : Registry) (st : GraphStore) (now : Nat)
    (entityId : String) (component : Component) : Except EMError (GraphStore × Entity) :=
  match getEntity st entityId with
  | none => .error (.entityNotFound entityId)
  | some existing =>
    if existing.components.any (fun c => c.componentType == component.componentType) then
      .error (.alreadyHasComponent entityId component.componentType)
    else
      match validateComponents reg [component] with
      | .error err => .error err
      | .ok () =>
      let st1 := mapEntity st entityId (fun e =>
        { e with comps := e.comps ++ [storeComponent component], updatedAt := now })
      match getEntity st1 entityId with
      | some e => .ok (st1, e)
      | none => .error (.readbackFailed entityId)

/-- EntityManager.updateComponent: require existence, validate, then one
transaction whose MATCH pairs the entity with each owned component node of
the given type; every matched row overwrites that component node's
properties and sets updatedAt, and with no matched row the transaction
changes nothing; then re-read. -/
def updateComponent (reg : Registry) (st : GraphStore) (now : Nat)
    (entityId componentType : String) (properties : PropBag) :
    Except EMError (GraphStore × Entity) :=
  match getEntity st entityId with
  | none => .error (.entityNotFound entityId)
  | some _ =>
    match validateComponents reg [⟨componentType, properties⟩] with
    | .error err => .error err
    | .ok () =>
    let owns := match findEntity st entityId with
      | some e => e.comps.any (fun c => c.type == componentType)
      | none => false
    let st1 :=
      if owns then
        mapEntity st entityId (fun e =>
          { e with
            comps := e.comps.map (fun c =>
              if c.type == componentType then ⟨c.type, serializeBag properties⟩ else c),
            updatedAt := now })
      else st
    match getEntity st1 entityId with
    | some e => .ok (st1, e)
    | none => .error (.readbackFailed entityId)

/-- EntityManager.createRelationship: both endpoints must exist (the error
names whichever is missing); then one transaction creates the typed edge. -/
def createRelationship (st : GraphStore) (fromId toId type : String)
    (properties : PropBag) : Except EMError GraphStore :=
  match getEntity st fromId with
  | none => .error (.sourceNotFound fromId)
  | some _ =>
    match getEntity st toId with
    | none => .error (.targetNotFound toId)
    | some _ => .ok { st with rels := st.rels ++ [⟨type, fromId, toId, properties⟩] }

/-- InfluxPoint of timeseries.model.ts as consumed by writePoint:
measurement is optional (falsy values fall back to the default), tag values
may be undefined (modelled by none) and field values are arbitrary. -/
structure InfluxPoint where
  measurement : Option String
  tags : List (String × Option String)
  fields : List (String × JSValue)
  timestamp : Nat
deriving DecidableEq, Repr

/-- A field written on an influxdb-client Point. -/
inductive FieldValue where
  | float (n : Int)
  | str (s : String)
  | bool (b : Bool)
deriving DecidableEq, Repr

/-- An influxdb-client Point as built by writePoint. -/
structure Point where
  measurement : String
  timestamp : Nat
  tags : List (String × String)
  fields : List (String × FieldValue)
deriving DecidableEq, Repr

/-- InfluxWriterService.MEASUREMENT. -/
def MEASUREMENT : String := "entity_metrics"

/-- InfluxWriterService.BATCH_SIZE. -/
def BATCH_SIZE : Nat := 1000

/-- The Point built at the top of writePoint: data.measurement with the
JavaScript || fallback, tags skipping undefined values, and fields mapped
by typeof (number to floatField, string to stringField, boolean to
booleanField, anything else skipped). -/
def mkPoint (data : InfluxPoint) : Point :=
  { measurement :=
      match data.measurement with
      | none => MEASUREMENT
      | some m => if m == "" then MEASUREMENT else m
  , timestamp := data.timestamp
  , tags := data.tags.filterMap (fun kv => kv.2.map (fun v => (kv.1, v)))
  , fields := data.fields.filterMap (fun kv =>
      match kv.2 with
      | .num n => some (kv.1, .float n)
      | .str s => some (kv.1, .str s)
      | .bool b => some (kv.1, .bool b)
      | _ => none) }

/-- The writer state: the live in-memory buffer and the batches the backend
has accepted (one list entry per successful client.writePoints call). -/
structure WriterState where
  buffer : List Point
  backendBatches : List (List Point)
deriving DecidableEq, Repr

/-- Result of one flush call: the state it leaves and whether the error was
propagated to the caller. -/
structure FlushOutcome where
  state : WriterState
  threw : Bool
deriving DecidableEq, Repr

/-- InfluxWriterService.flush.  An empty buffer returns at once.  Otherwise
the buffer is copied and swapped for an empty one and the batch is written;
`arrivingDuringWrite` are the points that writePoint pushes onto the fresh
buffer while the backend write is awaited.  On success the batch is
discarded; on failure unshift puts the whole batch back in front of the
live buffer and the error is rethrown. -/
def flush (backendOk : Bool) (arrivingDuringWrite : List Point)
    (st : WriterState) : FlushOutcome :=
  if st.buffer.isEmpty then ⟨st, false⟩
  else
    let pointsToWrite := st.buffer
    if backendOk then
      ⟨⟨arrivingDuringWrite, st.backendBatches ++ [pointsToWrite]⟩, false⟩
    else
      ⟨⟨pointsToWrite ++ arrivingDuringWrite, st.backendBatches⟩, true⟩

/-- InfluxWriterService.writePoint: build the Point, push it, and when the
buffer has reached BATCH_SIZE run flush (its rejection is caught and only
logged).  In this sequential model the triggered flush completes before the
next call, with no writes arriving while it is awaited. -/
def writePoint (backendOk : Bool) (data : InfluxPoint) (st : WriterState) : WriterState :=
  let st1 : WriterState := ⟨st.buffer ++ [mkPoint data], st.backendBatches⟩
  if BATCH_SIZE ≤ st1.buffer.length then (flush backendOk [] st1).state
  else st1

/-- A sequence of writePoint calls, first list element first. -/
def writeSeq (backendOk : Bool) (dataPoints : List InfluxPoint)
    (st : WriterState) : WriterState :=
  dataPoints.foldl (fun s d => writePoint backendOk d s) st

/-- Written from the claim wording, for comparison with the source
validator: String requires a string, Number a number, Boolean a boolean,
Date a Date object or a string, and JSON as well as any unrecognized kind
always passes. -/
def specKindAgrees (declaredKind : String) (v : JSValue) : Bool :=
  if declaredKind == "String" then v.isString
  else if declaredKind == "Number" then v.isNumber
  else if declaredKind == "Boolean" then v.isBoolean
  else if declaredKind == "Date" then v.isDate || v.isString
  else true

/-- Written from the claim wording: for one declared property, a
missing-required error when a required property is absent, and a
type-mismatch error exactly when the property is present and its runtime
kind disagrees with the declared kind. -/
def specPropErrors (bag : PropBag) (p : PropertyDefinition) : List String :=
  (if p.required && !hasKey bag p.name then
    ["Missing required property: " ++ p.name]
  else []) ++
  (if hasKey bag p.name && !specKindAgrees p.type (getProp bag p.name) then
    ["Invalid type for property '" ++ p.name ++ "': expected " ++ p.type]
  else [])

/-- Written from the claim wording: unknown types give the single error
naming the type; otherwise the errors of the declared properties (extra
undeclared properties produce none) with valid iff the list is empty. -/
def specValidateComponent (reg : Registry) (componentType : String)
    (properties : PropBag) : ValidationResult :=
  match getComponentType reg componentType with
  | none => ⟨false, ["Unknown component type: " ++ componentType]⟩
  | some t =>
      let errs := (t.properties.map (specPropErrors properties)).flatten
      ⟨errs.isEmpty, errs⟩

lemma validatePropertyType_eq_specKindAgrees (v : JSValue) (t : String) :
    validatePropertyType v t = specKindAgrees t v := by
  unfold validatePropertyType specKindAgrees
  split_ifs <;> rfl

lemma componentErrors_eq_spec (bag : PropBag) (props : List PropertyDefinition) :
    componentErrors bag props = (props.map (specPropErrors bag)).flatten := by
  induction props with
  | nil => rfl
  | cons p rest ih =>
      simp only [componentErrors, specPropErrors, List.map_cons, List.flatten_cons, ih,
        validatePropertyType_eq_specKindAgrees, List.append_assoc]

/-- C3: validateComponent returns invalid with the single unknown-type
error for unregistered types; otherwise each declared property contributes
a missing-required error when required and absent, and a type-mismatch
error exactly when present with a disagreeing runtime kind (String needs a
string, Number a number, Boolean a boolean, Date a Date or string, JSON
and unrecognized kinds always pass); extra undeclared properties produce no
error, and the result is valid iff the error list is empty. -/
theorem validateComponent_eq_spec (reg : Registry) (componentType : String)
    (properties : PropBag) :
    validateComponent reg componentType properties =
      specValidateComponent reg componentType properties := by
  unfold validateComponent specValidateComponent
  cases getComponentType reg componentType with
  | none => rfl
  | some t => simp only [componentErrors_eq_spec]

/-- C4 counterexample: a registered Brick Schema component type is present
in the registry, yet the brick-checking deleteComponentType variant refuses
to delete it, so deletion does not succeed unconditionally whenever a type
of that name is registered. -/
theorem deleteComponentType_brick_counterexample :
    getComponentType [⟨"AHU", [], true⟩] "AHU" = some ⟨"AHU", [], true⟩ ∧
    deleteComponentType [⟨"AHU", [], true⟩] "AHU" =
      .error (.brickProtected "AHU") := by
  exact ⟨rfl, rfl⟩

/-- C4 (amended): in both manager variants deletion fails with NotFound
when no type of that name is registered; when one is registered, the
variant without the brick check removes it unconditionally, while the
brick-checking variant refuses Brick Schema types and removes the type
otherwise; after removal the name no longer resolves. -/
theorem deleteComponentType_spec (reg : Registry) (name : String) :
    (getComponentType reg name = none →
      deleteComponentType reg name = .error (.notFound name) ∧
      deleteComponentTypeNoBrickCheck reg name = .error (.notFound name)) ∧
    (∀ ct, getComponentType reg name = some ct →
      deleteComponentTypeNoBrickCheck reg name =
        .ok (removeComponentTypeNodes reg name) ∧
      (ct.isBrickSchema = true →
        deleteComponentType reg name = .error (.brickProtected name)) ∧
      (ct.isBrickSchema = false →
        deleteComponentType reg name = .ok (removeComponentTypeNodes reg name))) ∧
    getComponentType (removeComponentTypeNodes reg name) name = none := by
  refine ⟨?_, ?_, ?_⟩
  · intro h
    unfold deleteComponentType deleteComponentTypeNoBrickCheck
    rw [h]
    exact ⟨rfl, rfl⟩
  · intro ct h
    unfold deleteComponentType deleteComponentTypeNoBrickCheck
    rw [h]
    exact ⟨rfl, fun hb => by simp [hb], fun hb => by simp [hb]⟩
  · unfold getComponentType removeComponentTypeNodes
    rw [List.find?_eq_none]
    intro x hx
    simpa using (List.mem_filter.mp hx).2

/-- Witness for the amended C4 theorem at concrete registries. -/
theorem deleteComponentType_spec_witness :
    deleteComponentType [⟨"Custom", [], false⟩] "Custom" = .ok [] ∧
    deleteComponentTypeNoBrickCheck ([] : Registry) "X" =
      .error (.notFound "X") := by
  constructor
  · exact ((deleteComponentType_spec [⟨"Custom", [], false⟩] "Custom").2.1
      ⟨"Custom", [], false⟩ rfl).2.2 rfl
  · exact ((deleteComponentType_spec [] "X").1 rfl).2

/-- C1: when an entity with the given id is already present and the input
components validate, createEntity fails with the AlreadyExists rejection of
the store uniqueness constraint, and the failed call leaves the store, and
in particular the first entity with its components and timestamps,
unchanged. -/
theorem createEntity_duplicate_id (reg : Registry) (st : GraphStore) (now : Nat)
    (input : CreateEntityInput) (e : Entity)
    (hid : getEntity st input.id = some e)
    (hval : validateComponents reg input.components = Except.ok ()) :
    createEntity reg st now input = .error (.entityExists input.id) ∧
    createEntityStore reg st now input = st ∧
    getEntity (createEntityStore reg st now input) input.id = some e := by
  have hfind : ∃ en, findEntity st input.id = some en := by
    cases hf : findEntity st input.id with
    | none => rw [getEntity, hf] at hid; exact absurd hid (by simp)
    | some en => exact ⟨en, rfl⟩
  obtain ⟨en, hen⟩ := hfind
  have hen2 : st.entities.find? (fun x => x.id == input.id) = some en := hen
  have hmem : en ∈ st.entities := List.mem_of_find?_eq_some hen2
  have hpred := List.find?_some hen2
  have hany : st.entities.any (fun x => x.id == input.id) = true :=
    List.any_eq_true.mpr ⟨en, hmem, hpred⟩
  have h1 : createEntity reg st now input = .error (.entityExists input.id) := by
    unfold createEntity
    rw [hval, hany]
    rfl
  refine ⟨h1, ?_, ?_⟩
  · unfold createEntityStore
    rw [h1]
  · unfold createEntityStore
    rw [h1]
    exact hid

/-- Witness for C1 at a concrete store holding one entity. -/
theorem createEntity_duplicate_id_witness :
    createEntity [] ⟨[⟨"e1", 5, 5, [⟨"T", []⟩]⟩], []⟩ 7 ⟨"e1", []⟩ =
      .error (.entityExists "e1") ∧
    createEntityStore [] ⟨[⟨"e1", 5, 5, [⟨"T", []⟩]⟩], []⟩ 7 ⟨"e1", []⟩ =
      ⟨[⟨"e1", 5, 5, [⟨"T", []⟩]⟩], []⟩ := by
  have h := createEntity_duplicate_id [] ⟨[⟨"e1", 5, 5, [⟨"T", []⟩]⟩], []⟩ 7
    ⟨"e1", []⟩ ⟨"e1", [⟨"T", []⟩], 5, 5⟩ rfl rfl
  exact ⟨h.1, h.2.1⟩

/-- C2 counterexample: with two registered types T and U each requiring a
property, and an input whose T component and U component are both invalid,
createEntity fails naming only the first invalid component T with its
single error; the errors of the equally invalid U component are not
aggregated into the failure. -/
theorem createEntity_first_invalid_counterexample :
    createEntity
      [⟨"T", [⟨"a", "Number", true⟩], false⟩, ⟨"U", [⟨"b", "Number", true⟩], false⟩]
      ⟨[], []⟩ 0 ⟨"e1", [⟨"T", []⟩, ⟨"U", []⟩]⟩ =
      .error (.invalidComponent "T" ["Missing required property: a"]) ∧
    validateComponent
      [⟨"T", [⟨"a", "Number", true⟩], false⟩, ⟨"U", [⟨"b", "Number", true⟩], false⟩]
      "U" [] =
      ⟨false, ["Missing required property: b"]⟩ := by
  exact ⟨rfl, rfl⟩

lemma validateComponents_first_invalid (reg : Registry) (comps : List Component)
    (c : Component)
    (h : comps.find?
      (fun x => !(validateComponent reg x.componentType x.properties).valid) = some c) :
    validateComponents reg comps =
      .error (.invalidComponent c.componentType
        (validateComponent reg c.componentType c.properties).errors) := by
  induction comps with
  | nil => simp at h
  | cons d rest ih =>
      rw [List.find?_cons] at h
      unfold validateComponents
      cases hv : (validateComponent reg d.componentType d.properties).valid with
      | true => rw [hv] at h; simp at h; simp [hv, ih h]
      | false =>
          rw [hv] at h
          simp at h
          subst h
          simp [hv]

/-- C2 (amended): createEntity validates the components in input order and
fails on the first invalid one, reporting that component's errors (all of
its property errors aggregated, but not the errors of later invalid
components); on any validation failure nothing is persisted: the store is
unchanged, so no entity and no component node is created. -/
theorem createEntity_validation_atomic (reg : Registry) (st : GraphStore)
    (now : Nat) (input : CreateEntityInput) (c : Component)
    (h : input.components.find?
      (fun x => !(validateComponent reg x.componentType x.properties).valid) = some c) :
    createEntity reg st now input =
      .error (.invalidComponent c.componentType
        (validateComponent reg c.componentType c.properties).errors) ∧
    createEntityStore reg st now input = st := by
  have hv := validateComponents_first_invalid reg input.components c h
  have h1 : createEntity reg st now input =
      .error (.invalidComponent c.componentType
        (validateComponent reg c.componentType c.properties).errors) := by
    unfold createEntity
    rw [hv]
  exact ⟨h1, by unfold createEntityStore; rw [h1]⟩

/-- Witness for the amended C2 theorem: an unregistered component type
fails the creation and leaves the empty store empty. -/
theorem createEntity_validation_atomic_witness :
    createEntity [] ⟨[], []⟩ 0 ⟨"e1", [⟨"T", []⟩]⟩ =
      .error (.invalidComponent "T" ["Unknown component type: T"]) ∧
    createEntityStore [] ⟨[], []⟩ 0 ⟨"e1", [⟨"T", []⟩]⟩ = ⟨[], []⟩ := by
  have h := createEntity_validation_atomic [] ⟨[], []⟩ 0 ⟨"e1", [⟨"T", []⟩]⟩
    ⟨"T", []⟩ rfl
  exact ⟨h.1, h.2⟩

/-- C10: for an existing entity and a component type that validates but
that the entity does not own, updateComponent raises no error: the SET
clause matches no component node, so it returns the entity unchanged with
the same component set and without bumping updatedAt, and the store is
untouched. -/
theorem updateComponent_absent_type_noop (reg : Registry) (st : GraphStore)
    (now : Nat) (entityId componentType : String) (properties : PropBag)
    (e : Entity)
    (hid : getEntity st entityId = some e)
    (hval : (validateComponent reg componentType properties).valid = true)
    (hnot : e.components.all (fun c => !(c.componentType == componentType)) = true) :
    updateComponent reg st now entityId componentType properties = .ok (st, e) := by
  have hfind : ∃ en, findEntity st entityId = some en ∧
      e = ⟨en.id, en.comps.map (fun c => ⟨c.type, c.properties⟩), en.createdAt, en.updatedAt⟩ := by
    cases hf : findEntity st entityId with
    | none => rw [getEntity, hf] at hid; exact absurd hid (by simp)
    | some en =>
        rw [getEntity, hf] at hid
        simp at hid
        exact ⟨en, rfl, hid.symm⟩
  obtain ⟨en, hen, he⟩ := hfind
  have hvs : validateComponents reg [⟨componentType, properties⟩] = .ok () := by
    simp [validateComponents, hval]
  have howns : en.comps.any (fun c => c.type == componentType) = false := by
    rw [List.any_eq_false]
    intro c hc
    have := List.all_eq_true.mp hnot ⟨c.type, c.properties⟩ (by
      rw [he]
      exact List.mem_map_of_mem _ hc)
    simpa using this
  unfold updateComponent
  rw [hid, hvs, hen]
  simp [howns, hid]

/-- Witness for C10: updating an unowned but registered type U on an
entity that owns only T returns the entity unchanged. -/
theorem updateComponent_absent_type_noop_witness :
    updateComponent [⟨"U", [], false⟩] ⟨[⟨"e1", 5, 5, [⟨"T", []⟩]⟩], []⟩ 9
      "e1" "U" [] =
      .ok (⟨[⟨"e1", 5, 5, [⟨"T", []⟩]⟩], []⟩, ⟨"e1", [⟨"T", []⟩], 5, 5⟩) := by
  exact updateComponent_absent_type_noop [⟨"U", [], false⟩]
    ⟨[⟨"e1", 5, 5, [⟨"T", []⟩]⟩], []⟩ 9 "e1" "U" []
    ⟨"e1", [⟨"T", []⟩], 5, 5⟩ rfl rfl rfl

/-- C6: deleteEntity returns false and changes nothing when the entity does
not exist; when it exists it returns true and removes the entity node with
its component nodes and every relationship edge in which the entity is
source or target, so that afterwards no edge referencing the entity
remains and the entity no longer resolves. -/
theorem deleteEntity_spec (st : GraphStore) (id : String) :
    (getEntity st id = none → deleteEntity st id = (false, st)) ∧
    (∀ e, getEntity st id = some e →
      (deleteEntity st id).1 = true ∧
      (deleteEntity st id).2.entities = st.entities.filter (fun en => !(en.id == id)) ∧
      (deleteEntity st id).2.rels =
        st.rels.filter (fun r => !(r.fromId == id) && !(r.toId == id)) ∧
      (∀ r ∈ (deleteEntity st id).2.rels, r.fromId ≠ id ∧ r.toId ≠ id) ∧
      getEntity (deleteEntity st id).2 id = none) := by
  constructor
  · intro h
    unfold deleteEntity
    rw [h]
  · intro e h
    unfold deleteEntity
    rw [h]
    refine ⟨rfl, rfl, rfl, ?_, ?_⟩
    · intro r hr
      have := (List.mem_filter.mp hr).2
      simp at this
      exact ⟨this.1, this.2⟩
    · simp only [getEntity, findEntity, Option.map_eq_none']
      rw [List.find?_eq_none]
      intro x hx
      simpa using (List.mem_filter.mp hx).2

/-- Witness for C6: deleting A removes A, its component and both edges
touching A, keeping the unrelated edge; deleting a missing id is a no-op
returning false. -/
theorem deleteEntity_spec_witness :
    (deleteEntity
      ⟨[⟨"A", 0, 0, [⟨"T", []⟩]⟩, ⟨"B", 0, 0, []⟩],
       [⟨"feeds", "A", "B", []⟩, ⟨"feeds", "B", "A", []⟩, ⟨"x", "B", "B", []⟩]⟩
      "A").1 = true ∧
    (deleteEntity
      ⟨[⟨"A", 0, 0, [⟨"T", []⟩]⟩, ⟨"B", 0, 0, []⟩],
       [⟨"feeds", "A", "B", []⟩, ⟨"feeds", "B", "A", []⟩, ⟨"x", "B", "B", []⟩]⟩
      "A").2.rels = [⟨"x", "B", "B", []⟩] ∧
    deleteEntity ⟨[], []⟩ "Z" = (false, ⟨[], []⟩) := by
  have h := (deleteEntity_spec
    ⟨[⟨"A", 0, 0, [⟨"T", []⟩]⟩, ⟨"B", 0, 0, []⟩],
     [⟨"feeds", "A", "B", []⟩, ⟨"feeds", "B", "A", []⟩, ⟨"x", "B", "B", []⟩]⟩
    "A").2 ⟨"A", [⟨"T", []⟩], 0, 0⟩ rfl
  exact ⟨h.1, h.2.2.1, (deleteEntity_spec ⟨[], []⟩ "Z").1 rfl⟩

/-- The :Entity node written by createEntity, with one component node per
input component. -/
def createdNode (now : Nat) (input : CreateEntityInput) : EntityNode :=
  ⟨input.id, now, now, input.components.map storeComponent⟩

/-- A component as it comes back from the store: same type name, property
bag passed through JSON serialisation. -/
def serializeComponent (c : Component) : Component :=
  ⟨c.componentType, serializeBag c.properties⟩

lemma jsonRoundTrip_of_not_date (v : JSValue) (h : v.isDate = false) :
    v.jsonRoundTrip = v := by
  cases v <;> simp_all [JSValue.isDate, JSValue.jsonRoundTrip]

lemma serializeBag_dateFree (bag : PropBag) (h : dateFreeBag bag = true) :
    serializeBag bag = bag := by
  induction bag with
  | nil => rfl
  | cons p rest ih =>
      unfold dateFreeBag at h
      simp only [List.all_cons, Bool.and_eq_true] at h
      have h1 : p.2.isDate = false := by simpa using h.1
      show (p.1, p.2.jsonRoundTrip) :: serializeBag rest = p :: rest
      rw [jsonRoundTrip_of_not_date p.2 h1, ih (by simpa [dateFreeBag] using h.2)]

lemma map_serializeComponent_dateFree (comps : List Component)
    (h : comps.all (fun c => dateFreeBag c.properties) = true) :
    comps.map serializeComponent = comps := by
  induction comps with
  | nil => rfl
  | cons c rest ih =>
      simp only [List.all_cons, Bool.and_eq_true] at h
      simp [serializeComponent, serializeBag_dateFree c.properties h.1, ih h.2]

/-- C5 counterexample: a component whose Date-declared property holds a
Date object validates, but after createEntity the returned component set is
not the given one, not even up to ordering: the Date value came back as its
ISO string (JSON.stringify on write, JSON.parse on read). -/
theorem createEntity_roundtrip_counterexample :
    validateComponents [⟨"Cal", [⟨"when", "Date", true⟩], false⟩]
      [⟨"Cal", [("when", JSValue.date "2020-01-01T00:00:00.000Z")]⟩] = .ok () ∧
    createEntity [⟨"Cal", [⟨"when", "Date", true⟩], false⟩] ⟨[], []⟩ 0
      ⟨"e1", [⟨"Cal", [("when", JSValue.date "2020-01-01T00:00:00.000Z")]⟩]⟩ =
      .ok (⟨[⟨"e1", 0, 0, [⟨"Cal", [("when", JSValue.str "2020-01-01T00:00:00.000Z")]⟩]⟩], []⟩,
           ⟨"e1", [⟨"Cal", [("when", JSValue.str "2020-01-01T00:00:00.000Z")]⟩], 0, 0⟩) ∧
    ¬ List.Perm
      ([⟨"Cal", [("when", JSValue.str "2020-01-01T00:00:00.000Z")]⟩] : List Component)
      [⟨"Cal", [("when", JSValue.date "2020-01-01T00:00:00.000Z")]⟩] := by
  refine ⟨rfl, rfl, by decide⟩

/-- C5 (amended): for a fresh id and components that validate, createEntity
appends exactly one entity node and the re-read entity has the given id,
creation timestamps, and the given component list with each property bag
passed through JSON serialisation (Date objects come back as their ISO
strings); when no property value is a Date object the component set equals
the input exactly. -/
theorem createEntity_getEntity_roundtrip (reg : Registry) (st : GraphStore)
    (now : Nat) (input : CreateEntityInput)
    (hfresh : findEntity st input.id = none)
    (hval : validateComponents reg input.components = Except.ok ()) :
    createEntity reg st now input =
      .ok ({ st with entities := st.entities ++ [createdNode now input] },
           ⟨input.id, input.components.map serializeComponent, now, now⟩) ∧
    getEntity { st with entities := st.entities ++ [createdNode now input] } input.id =
      some ⟨input.id, input.components.map serializeComponent, now, now⟩ ∧
    (input.components.all (fun c => dateFreeBag c.properties) = true →
      input.components.map serializeComponent = input.components) := by
  have hfresh2 : st.entities.find? (fun x => x.id == input.id) = none := hfresh
  have hany : st.entities.any (fun x => x.id == input.id) = false := by
    rw [List.any_eq_false]
    intro x hx
    exact List.find?_eq_none.mp hfresh2 x hx
  have hfind1 : findEntity
      { st with entities := st.entities ++ [createdNode now input] } input.id =
      some (createdNode now input) := by
    unfold findEntity
    rw [List.find?_append]
    simp only [hfresh2, Option.none_or]
    simp [createdNode]
  have h2 : getEntity
      { st with entities := st.entities ++ [createdNode now input] } input.id =
      some ⟨input.id, input.components.map serializeComponent, now, now⟩ := by
    unfold getEntity
    rw [hfind1]
    simp [createdNode, storeComponent, serializeComponent, List.map_map,
      Function.comp]
  refine ⟨?_, h2, map_serializeComponent_dateFree input.components⟩
  unfold createEntity
  rw [hval]
  simp only [hany, Bool.false_eq_true, if_false]
  have hnode : (⟨input.id, now, now,
      List.map storeComponent input.components⟩ : EntityNode) =
      createdNode now input := rfl
  rw [hnode, h2]

/-- Witness for the amended C5 theorem at the AHU example of the spec. -/
theorem createEntity_getEntity_roundtrip_witness :
    createEntity [⟨"AHU", [⟨"fanType", "String", false⟩], false⟩] ⟨[], []⟩ 3
      ⟨"ahu-01", [⟨"AHU", [("fanType", JSValue.str "centrifugal")]⟩]⟩ =
      .ok (⟨[⟨"ahu-01", 3, 3, [⟨"AHU", [("fanType", JSValue.str "centrifugal")]⟩]⟩], []⟩,
           ⟨"ahu-01", [⟨"AHU", [("fanType", JSValue.str "centrifugal")]⟩], 3, 3⟩) := by
  have h := createEntity_getEntity_roundtrip
    [⟨"AHU", [⟨"fanType", "String", false⟩], false⟩] ⟨[], []⟩ 3
    ⟨"ahu-01", [⟨"AHU", [("fanType", JSValue.str "centrifugal")]⟩]⟩ rfl rfl
  exact h.1

lemma writeSeq_fill (ps : List InfluxPoint) (st : WriterState)
    (h : st.buffer.length + ps.length = BATCH_SIZE) (hne : ps ≠ []) :
    writeSeq true ps st =
      ⟨[], st.backendBatches ++ [st.buffer ++ ps.map mkPoint]⟩ := by
  induction ps generalizing st with
  | nil => cases hne rfl
  | cons d rest ih =>
      have hstep : writeSeq true (d :: rest) st =
          writeSeq true rest (writePoint true d st) := rfl
      by_cases hr : rest = []
      · subst hr
        simp only [List.length_cons, List.length_nil] at h
        have hfull : BATCH_SIZE ≤ st.buffer.length + 1 := by omega
        have hnotempty : (st.buffer ++ [mkPoint d]).isEmpty = false := by
          simp [List.isEmpty_iff]
        rw [hstep]
        simp [writeSeq, writePoint, flush, hfull, hnotempty, List.length_append]
      · have hrl : 1 ≤ rest.length := by
          cases rest with
          | nil => cases hr rfl
          | cons a l => simp
        simp only [List.length_cons] at h
        have hgt : ¬ BATCH_SIZE ≤ st.buffer.length + 1 := by omega
        have hnof : writePoint true d st =
            ⟨st.buffer ++ [mkPoint d], st.backendBatches⟩ := by
          unfold writePoint
          simp [hgt, List.length_append]
        rw [hstep, hnof]
        have h2 : (⟨st.buffer ++ [mkPoint d], st.backendBatches⟩ :
            WriterState).buffer.length + rest.length = BATCH_SIZE := by
          simp [List.length_append]
          omega
        rw [ih ⟨st.buffer ++ [mkPoint d], st.backendBatches⟩ h2 hr]
        simp

/-- C8: starting from an empty buffer, after 1000 write calls (BATCH_SIZE
is 1000 and the backend accepts the batch) the buffer length is back to 0
and exactly one batched backend write containing exactly those 1000 points
has been issued: the size-triggered flush fires when the buffer reaches
BATCH_SIZE. -/
theorem writer_batch_1000 (ps : List InfluxPoint) (h : ps.length = 1000) :
    writeSeq true ps ⟨[], []⟩ = ⟨[], [ps.map mkPoint]⟩ := by
  have hne : ps ≠ [] := by
    intro he
    rw [he] at h
    simp at h
  have := writeSeq_fill ps ⟨[], []⟩ (by simpa [BATCH_SIZE] using h) hne
  simpa using this

/-- Witness for C8 with 1000 identical points. -/
theorem writer_batch_1000_witness :
    writeSeq true (List.replicate 1000 ⟨none, [], [], 0⟩) ⟨[], []⟩ =
      ⟨[], [List.replicate 1000 (mkPoint ⟨none, [], [], 0⟩)]⟩ := by
  have h := writer_batch_1000 (List.replicate 1000 ⟨none, [], [], 0⟩)
    (by rw [List.length_replicate])
  rw [List.map_replicate] at h
  exact h

/-- C9: when the backend write fails, flush prepends the entire failed
batch back onto the front of the live buffer, ahead of any points written
during the flush, so no point is lost, and the error is propagated to the
caller; a subsequent successful flush then empties the buffer, handing the
whole backlog to the backend. -/
theorem flush_failure_rebuffer (st : WriterState) (arriving : List Point)
    (hne : st.buffer ≠ []) :
    flush false arriving st =
      ⟨⟨st.buffer ++ arriving, st.backendBatches⟩, true⟩ ∧
    flush true [] ⟨st.buffer ++ arriving, st.backendBatches⟩ =
      ⟨⟨[], st.backendBatches ++ [st.buffer ++ arriving]⟩, false⟩ := by
  have h1 : st.buffer.isEmpty = false := by
    simpa [List.isEmpty_iff] using hne
  have h2 : (st.buffer ++ arriving).isEmpty = false := by
    rw [Bool.eq_false_iff]
    intro hcontra
    exact hne (List.append_eq_nil.mp (List.isEmpty_iff.mp hcontra)).1
  constructor
  · unfold flush
    simp only [h1, Bool.false_eq_true, if_false, if_true]
  · unfold flush
    simp only [h2, Bool.false_eq_true, if_false, if_true]

/-- Witness for C9 with a one-point batch and one arriving point. -/
theorem flush_failure_rebuffer_witness :
    flush false [⟨"m", 1, [], []⟩] ⟨[⟨"m", 0, [], []⟩], []⟩ =
      ⟨⟨[⟨"m", 0, [], []⟩, ⟨"m", 1, [], []⟩], []⟩, true⟩ ∧
    flush true [] ⟨[⟨"m", 0, [], []⟩, ⟨"m", 1, [], []⟩], []⟩ =
      ⟨⟨[], [[⟨"m", 0, [], []⟩, ⟨"m", 1, [], []⟩]]⟩, false⟩ := by
  have h := flush_failure_rebuffer ⟨[⟨"m", 0, [], []⟩], []⟩ [⟨"m", 1, [], []⟩]
    (by simp)
  exact ⟨h.1, h.2⟩

/-- Every entity of the store owns at most one component per componentType
name. -/
def EntityTypesUnique (st : GraphStore) : Prop :=
  ∀ en ∈ st.entities, (en.comps.map StoredComponent.type).Nodup

lemma map_type_storeComponent (comps : List Component) :
    (comps.map storeComponent).map StoredComponent.type =
      comps.map Component.componentType := by
  rw [List.map_map]
  rfl

lemma createEntity_ok_state (reg : Registry) (st : GraphStore) (now : Nat)
    (input : CreateEntityInput) (st1 : GraphStore) (e1 : Entity)
    (hok : createEntity reg st now input = .ok (st1, e1)) :
    st1 = { st with entities := st.entities ++ [createdNode now input] } := by
  unfold createEntity at hok
  split at hok
  · exact absurd hok (by simp)
  · split at hok
    · exact absurd hok (by simp)
    · simp only [] at hok
      split at hok
      · simp only [Except.ok.injEq, Prod.mk.injEq] at hok
        exact hok.1.symm
      · exact absurd hok (by simp)

lemma updateEntity_ok_state (reg : Registry) (st : GraphStore) (now : Nat)
    (id : String) (components : List Component) (st1 : GraphStore) (e1 : Entity)
    (hok : updateEntity reg st now id components = .ok (st1, e1)) :
    st1 = mapEntity st id (fun e =>
      { e with comps := components.map storeComponent, updatedAt := now }) := by
  unfold updateEntity at hok
  split at hok
  · exact absurd hok (by simp)
  · split at hok
    · exact absurd hok (by simp)
    · simp only [] at hok
      split at hok
      · simp only [Except.ok.injEq, Prod.mk.injEq] at hok
        exact hok.1.symm
      · exact absurd hok (by simp)

lemma addComponent_ok_state (reg : Registry) (st : GraphStore) (now : Nat)
    (entityId : String) (component : Component) (st1 : GraphStore) (e1 : Entity)
    (hok : addComponent reg st now entityId component = .ok (st1, e1)) :
    ∃ ex, getEntity st entityId = some ex ∧
      ex.components.any
        (fun c => c.componentType == component.componentType) = false ∧
      st1 = mapEntity st entityId (fun e =>
        { e with comps := e.comps ++ [storeComponent component],
                 updatedAt := now }) := by
  unfold addComponent at hok
  split at hok
  · exact absurd hok (by simp)
  · rename_i ex heq
    split at hok
    · exact absurd hok (by simp)
    · rename_i hnotany
      split at hok
      · exact absurd hok (by simp)
      · simp only [] at hok
        split at hok
        · simp only [Except.ok.injEq, Prod.mk.injEq] at hok
          exact ⟨ex, heq, by simpa using hnotany, hok.1.symm⟩
        · exact absurd hok (by simp)

lemma updateComponent_ok_state (reg : Registry) (st : GraphStore) (now : Nat)
    (entityId componentType : String) (properties : PropBag)
    (st1 : GraphStore) (e1 : Entity)
    (hok : updateComponent reg st now entityId componentType properties =
      .ok (st1, e1)) :
    st1 = st ∨
    st1 = mapEntity st entityId (fun e =>
      { e with
        comps := e.comps.map (fun c =>
          if c.type == componentType then ⟨c.type, serializeBag properties⟩ else c),
        updatedAt := now }) := by
  unfold updateComponent at hok
  split at hok
  · exact absurd hok (by simp)
  · split at hok
    · exact absurd hok (by simp)
    · simp only [] at hok
      split at hok
      · split at hok
        · simp only [Except.ok.injEq, Prod.mk.injEq] at hok
          exact Or.inr hok.1.symm
        · simp only [Except.ok.injEq, Prod.mk.injEq] at hok
          exact Or.inl hok.1.symm
      · exact absurd hok (by simp)

lemma entityTypesUnique_append (st : GraphStore) (node : EntityNode)
    (hst : EntityTypesUnique st)
    (hn : (node.comps.map StoredComponent.type).Nodup) :
    EntityTypesUnique { st with entities := st.entities ++ [node] } := by
  intro en hmem
  rcases List.mem_append.mp hmem with h | h
  · exact hst en h
  · rw [List.mem_singleton.mp h]
    exact hn

lemma entityTypesUnique_mapEntity (st : GraphStore) (id : String)
    (f : EntityNode → EntityNode)
    (hst : EntityTypesUnique st)
    (hf : ∀ en ∈ st.entities, (en.id == id) = true →
      (en.comps.map StoredComponent.type).Nodup →
      ((f en).comps.map StoredComponent.type).Nodup) :
    EntityTypesUnique (mapEntity st id f) := by
  intro en hmem
  unfold mapEntity at hmem
  simp only [List.mem_map] at hmem
  obtain ⟨x, hx, hen⟩ := hmem
  subst hen
  by_cases hcond : (x.id == id) = true
  · rw [if_pos hcond]
    exact hf x hx hcond (hst x hx)
  · rw [if_neg hcond]
    exact hst x hx

lemma eq_of_findEntity_of_idsNodup (st : GraphStore) (id : String)
    (en0 : EntityNode)
    (hids : (st.entities.map EntityNode.id).Nodup)
    (hfind : findEntity st id = some en0) :
    ∀ x ∈ st.entities, (x.id == id) = true → x = en0 := by
  intro x hx hxid
  have hfind2 : st.entities.find? (fun e => e.id == id) = some en0 := hfind
  have h0mem := List.mem_of_find?_eq_some hfind2
  have h0id := List.find?_some hfind2
  apply List.inj_on_of_nodup_map hids hx h0mem
  have hx2 : x.id = id := by simpa using hxid
  have h02 : en0.id = id := by simpa using h0id
  rw [hx2, h02]

lemma any_type_map (l : List StoredComponent) (ct : String) :
    ((l.map (fun c => (⟨c.type, c.properties⟩ : Component))).any
      (fun c => c.componentType == ct)) = l.any (fun c => c.type == ct) := by
  induction l with
  | nil => rfl
  | cons c rest ih => simp only [List.map_cons, List.any_cons, ih]

/-- C7 counterexample: createEntity does not deduplicate its input, so an
input list with two components of the registered type T succeeds and
produces one entity owning two components of the same type, violating the
at-most-one-per-type invariant. -/
theorem component_type_duplication_counterexample :
    createEntity [⟨"T", [], false⟩] ⟨[], []⟩ 0 ⟨"e1", [⟨"T", []⟩, ⟨"T", []⟩]⟩ =
      .ok (⟨[⟨"e1", 0, 0, [⟨"T", []⟩, ⟨"T", []⟩]⟩], []⟩,
           ⟨"e1", [⟨"T", []⟩, ⟨"T", []⟩], 0, 0⟩) ∧
    ¬ (([⟨"T", []⟩, ⟨"T", []⟩] : List Component).map
        Component.componentType).Nodup := by
  exact ⟨rfl, by decide⟩

/-- C7 (amended): addComponent fails when the entity already owns a
component of the given type, and all four mutating operations preserve the
at-most-one-component-per-type invariant provided the input component lists
of createEntity and updateEntity have pairwise distinct type names (the
code inserts those lists verbatim, so a duplicated type in the input
produces a duplicate on the entity); addComponent additionally relies on
entity ids being unique (the store constraint of constraints.cypher) and
updateComponent needs no side condition since it only overwrites in
place. -/
theorem component_type_uniqueness :
    (∀ (reg : Registry) (st : GraphStore) (now : Nat) (entityId : String)
      (component : Component) (ex : Entity),
      getEntity st entityId = some ex →
      ex.components.any
        (fun c => c.componentType == component.componentType) = true →
      addComponent reg st now entityId component =
        .error (.alreadyHasComponent entityId component.componentType)) ∧
    (∀ (reg : Registry) (st : GraphStore) (now : Nat)
      (input : CreateEntityInput) (st1 : GraphStore) (e1 : Entity),
      EntityTypesUnique st →
      (input.components.map Component.componentType).Nodup →
      createEntity reg st now input = .ok (st1, e1) →
      EntityTypesUnique st1) ∧
    (∀ (reg : Registry) (st : GraphStore) (now : Nat) (id : String)
      (components : List Component) (st1 : GraphStore) (e1 : Entity),
      EntityTypesUnique st →
      (components.map Component.componentType).Nodup →
      updateEntity reg st now id components = .ok (st1, e1) →
      EntityTypesUnique st1) ∧
    (∀ (reg : Registry) (st : GraphStore) (now : Nat) (entityId : String)
      (component : Component) (st1 : GraphStore) (e1 : Entity),
      EntityTypesUnique st →
      (st.entities.map EntityNode.id).Nodup →
      addComponent reg st now entityId component = .ok (st1, e1) →
      EntityTypesUnique st1) ∧
    (∀ (reg : Registry) (st : GraphStore) (now : Nat)
      (entityId componentType : String) (properties : PropBag)
      (st1 : GraphStore) (e1 : Entity),
      EntityTypesUnique st →
      updateComponent reg st now entityId componentType properties =
        .ok (st1, e1) →
      EntityTypesUnique st1) := by
  refine ⟨?_, ?_, ?_, ?_, ?_⟩
  · intro reg st now entityId component ex hid hown
    unfold addComponent
    rw [hid]
    simp only [hown, if_true]
  · intro reg st now input st1 e1 hst hnodup hok
    rw [createEntity_ok_state reg st now input st1 e1 hok]
    apply entityTypesUnique_append st (createdNode now input) hst
    show ((input.components.map storeComponent).map StoredComponent.type).Nodup
    rw [map_type_storeComponent]
    exact hnodup
  · intro reg st now id components st1 e1 hst hnodup hok
    rw [updateEntity_ok_state reg st now id components st1 e1 hok]
    apply entityTypesUnique_mapEntity st id _ hst
    intro en hmem hid hnd
    show ((components.map storeComponent).map StoredComponent.type).Nodup
    rw [map_type_storeComponent]
    exact hnodup
  · intro reg st now entityId component st1 e1 hst hids hok
    obtain ⟨ex, hget, hnotown, hstate⟩ :=
      addComponent_ok_state reg st now entityId component st1 e1 hok
    have hfind : ∃ en0, findEntity st entityId = some en0 ∧
        ex = ⟨en0.id, en0.comps.map (fun c => ⟨c.type, c.properties⟩),
              en0.createdAt, en0.updatedAt⟩ := by
      cases hf : findEntity st entityId with
      | none => rw [getEntity, hf] at hget; exact absurd hget (by simp)
      | some en0 =>
          rw [getEntity, hf] at hget
          simp at hget
          exact ⟨en0, rfl, hget.symm⟩
    obtain ⟨en0, hf0, hex⟩ := hfind
    have hnotown2 : en0.comps.any
        (fun c => c.type == component.componentType) = false := by
      rw [← any_type_map en0.comps component.componentType]
      rw [hex] at hnotown
      exact hnotown
    rw [hstate]
    apply entityTypesUnique_mapEntity st entityId _ hst
    intro en hmem hid hnd
    have hen0 : en = en0 :=
      eq_of_findEntity_of_idsNodup st entityId en0 hids hf0 en hmem hid
    subst hen0
    show ((en.comps ++ [storeComponent component]).map
      StoredComponent.type).Nodup
    rw [List.map_append, List.nodup_append]
    refine ⟨hnd, by simp, ?_⟩
    show (en.comps.map StoredComponent.type).Disjoint
      ([storeComponent component].map StoredComponent.type)
    have hone : [storeComponent component].map StoredComponent.type =
        [component.componentType] := rfl
    rw [hone, List.disjoint_singleton]
    intro hmem2
    simp only [List.mem_map] at hmem2
    obtain ⟨c, hc, hct⟩ := hmem2
    have := List.any_eq_false.mp hnotown2 c hc
    rw [hct] at this
    simp at this
  · intro reg st now entityId componentType properties st1 e1 hst hok
    rcases updateComponent_ok_state reg st now entityId componentType
      properties st1 e1 hok with h | h
    · rw [h]; exact hst
    · rw [h]
      apply entityTypesUnique_mapEntity st entityId _ hst
      intro en hmem hid hnd
      have htypes : ((en.comps.map (fun c =>
          if c.type == componentType then
            (⟨c.type, serializeBag properties⟩ : StoredComponent)
          else c)).map StoredComponent.type) =
          en.comps.map StoredComponent.type := by
        rw [List.map_map]
        apply List.map_congr_left
        intro c hc
        by_cases hcc : (c.type == componentType) = true
        · simp [Function.comp, hcc]
        · simp [Function.comp, hcc]
      show ((en.comps.map (fun c =>
        if c.type == componentType then
          (⟨c.type, serializeBag properties⟩ : StoredComponent)
        else c)).map StoredComponent.type).Nodup
      rw [htypes]
      exact hnd

/-- Witness for the amended C7 theorem: re-adding Equipment to an entity
that owns it fails, and a fresh creation with distinct types keeps the
invariant. -/
theorem component_type_uniqueness_witness :
    addComponent [⟨"Equipment", [], false⟩]
      ⟨[⟨"e1", 0, 0, [⟨"Equipment", []⟩]⟩], []⟩ 1 "e1" ⟨"Equipment", []⟩ =
      .error (.alreadyHasComponent "e1" "Equipment") ∧
    EntityTypesUnique ⟨[⟨"e1", 0, 0, [⟨"T", []⟩]⟩], []⟩ := by
  constructor
  · exact component_type_uniqueness.1 [⟨"Equipment", [], false⟩]
      ⟨[⟨"e1", 0, 0, [⟨"Equipment", []⟩]⟩], []⟩ 1 "e1" ⟨"Equipment", []⟩
      ⟨"e1", [⟨"Equipment", []⟩], 0, 0⟩ rfl rfl
  · exact component_type_uniqueness.2.1 [⟨"T", [], false⟩] ⟨[], []⟩ 0
      ⟨"e1", [⟨"T", []⟩]⟩ ⟨[⟨"e1", 0, 0, [⟨"T", []⟩]⟩], []⟩
      ⟨"e1", [⟨"T", []⟩], 0, 0⟩ (by intro en hmem; simp at hmem)
      (by decide) rfl
